import Mathlib

/-!
Verification of the SGNL generic-webhook job against its two source variants:
the bundled handler object in `dist/index.js` (the rich JobResult variant the
spec follows) and the fetch-based `src/script.mjs` variant.  The handlers are
embedded as pure Lean functions; the platform collaborators (the HTTP
transport, the clock) are passed in explicitly as a `World`, and `JSON.parse`
is modelled by an executable JSON syntax parser below.
-/

namespace Webhook

/-! ## JS / JSON value model

A JSON-shaped JavaScript value.  Numbers keep their literal text: the claims
checked here never inspect a numeric value beyond its zero-ness, so the
float conversion performed by the platform is not modelled. -/

inductive Json where
  | null
  | bool (b : Bool)
  | num (raw : String)
  | str (s : String)
  | arr (elems : List Json)
  | obj (fields : List (String × Json))

/-- JS truthiness of an optional string (`undefined` is `none`): only a
present, non-empty string is truthy. -/
def truthyStr : Option String → Bool
  | none => false
  | some s => s != ""

/-- A JSON number literal denotes zero iff every digit of its integer and
fraction parts is `0` (the exponent cannot make a non-zero mantissa zero;
float underflow is not modelled). -/
def numIsZero (raw : String) : Bool :=
  (raw.toList.takeWhile (fun c => c != 'e' && c != 'E')).all
    (fun c => !c.isDigit || c = '0')

/-- JS truthiness of a JSON-shaped value. -/
def jsTruthy : Json → Bool
  | .null => false
  | .bool b => b
  | .num raw => !numIsZero raw
  | .str s => s != ""
  | .arr _ => true
  | .obj _ => true

/-- JS truthiness of an optional value (`undefined` is `none`). -/
def truthyJson : Option Json → Bool
  | none => false
  | some v => jsTruthy v

/-- JS `a || b` on optional strings: `a` when truthy, else `b`. -/
def jsOr (a b : Option String) : Option String :=
  if truthyStr a then a else b

/-! ## Substring containment (JS `String.prototype.includes`) -/

def containsList (hay pat : List Char) : Bool :=
  pat.isPrefixOf hay ||
    match hay with
    | [] => false
    | _ :: t => containsList t pat

/-- `containsSubstr s pat` models `s.includes(pat)`. -/
def containsSubstr (s pat : String) : Bool :=
  containsList s.toList pat.toList

/-! ## Header maps (JS plain objects with string values)

Headers are association lists with JS object-property semantics: setting an
existing key updates it in place, a new key is appended. -/

def setHeader (h : List (String × String)) (k v : String) : List (String × String) :=
  if h.any (fun p => p.1 = k) then
    h.map (fun p => if p.1 = k then (p.1, v) else p)
  else
    h ++ [(k, v)]

/-- Value of property `k`, `none` when absent (`undefined`): the first pair
with that key (keys are unique in an object built by `setHeader`). -/
def lookupHeader (h : List (String × String)) (k : String) : Option String :=
  match h with
  | [] => none
  | p :: t => if p.1 = k then some p.2 else lookupHeader t k

/-- `Object.assign(h, ...)` for a list of key/value pairs, in order (a later
duplicate key overwrites an earlier one, as in JS). -/
def assignFields (h : List (String × String)) (fields : List (String × String)) :
    List (String × String) :=
  fields.foldl (fun acc kv => setHeader acc kv.1 kv.2) h

mutual

/-- JS string conversion of a JSON-shaped value, used when a JSON value ends
up as a header value. -/
def jsonToStr : Json → String
  | .null => "null"
  | .bool true => "true"
  | .bool false => "false"
  | .num raw => raw
  | .str s => s
  | .arr es => String.intercalate "," (jsonArrParts es)
  | .obj _ => "[object Object]"

/-- The pieces `Array.prototype.toString` joins: a `null` element converts
to the empty string, any other element to its string conversion. -/
def jsonArrParts : List Json → List String
  | [] => []
  | .null :: t => "" :: jsonArrParts t
  | x :: t => jsonToStr x :: jsonArrParts t

end

/-- `Object.assign(h, v)` for an arbitrary source value `v`: an object
contributes its fields, an array / string its indexed elements, and a
primitive contributes nothing. -/
def assignJson (h : List (String × String)) (v : Json) : List (String × String) :=
  match v with
  | .obj fields => assignFields h (fields.map (fun kv => (kv.1, jsonToStr kv.2)))
  | .arr elems => assignFields h
      (elems.enum.map (fun p => (toString p.1, jsonToStr p.2)))
  | .str s => assignFields h
      (s.toList.enum.map (fun p => (toString p.1, String.singleton p.2)))
  | _ => h

/-! ## JSON syntax (the model of `JSON.parse`)

A recursive-descent parser for the ECMA-404 grammar, over the character list
of the input.  `fuel` bounds the call depth; `parseJson` supplies more fuel
than any input of its length can consume, so the bound never fires on real
input. -/

def isJsonWs (c : Char) : Bool :=
  c = ' ' || c = '\t' || c = '\n' || c = '\r'

def skipWs : List Char → List Char
  | [] => []
  | c :: cs => if isJsonWs c then skipWs cs else c :: cs

def isHexDigitChar (c : Char) : Bool :=
  c.isDigit || ('a' ≤ c && c ≤ 'f') || ('A' ≤ c && c ≤ 'F')

def hexVal (c : Char) : Nat :=
  if c.isDigit then c.toNat - '0'.toNat
  else if 'a' ≤ c && c ≤ 'f' then c.toNat - 'a'.toNat + 10
  else if 'A' ≤ c && c ≤ 'F' then c.toNat - 'A'.toNat + 10
  else 0

/-- Body of a JSON string literal, after the opening quote: the decoded
content and the input after the closing quote. -/
def parseStringBody : Nat → List Char → Option (String × List Char)
  | 0, _ => none
  | _, [] => none
  | fuel + 1, c :: cs =>
    if c = '"' then some ("", cs)
    else if c = '\\' then
      match cs with
      | [] => none
      | e :: cs2 =>
        let cont := fun (ch : Char) (rest : List Char) =>
          match parseStringBody fuel rest with
          | some (s, r) => some (ch.toString ++ s, r)
          | none => none
        if e = '"' then cont '"' cs2
        else if e = '\\' then cont '\\' cs2
        else if e = '/' then cont '/' cs2
        else if e = 'b' then cont (Char.ofNat 8) cs2
        else if e = 'f' then cont (Char.ofNat 12) cs2
        else if e = 'n' then cont '\n' cs2
        else if e = 'r' then cont '\r' cs2
        else if e = 't' then cont '\t' cs2
        else if e = 'u' then
          match cs2 with
          | h1 :: h2 :: h3 :: h4 :: cs3 =>
            if isHexDigitChar h1 && isHexDigitChar h2 &&
                isHexDigitChar h3 && isHexDigitChar h4 then
              cont (Char.ofNat
                (((hexVal h1 * 16 + hexVal h2) * 16 + hexVal h3) * 16 + hexVal h4)) cs3
            else none
          | _ => none
        else none
    else if c.toNat < 0x20 then none
    else
      match parseStringBody fuel cs with
      | some (s, r) => some (c.toString ++ s, r)
      | none => none

/-- The digits of a JSON number's fraction part, if a well-formed fraction
starts here; otherwise passes the input through unchanged. -/
def parseFrac (l : List Char) : Option (String × List Char) :=
  match l with
  | '.' :: rest =>
    let digits := rest.takeWhile Char.isDigit
    if digits.isEmpty then none
    else some ("." ++ String.mk digits, rest.dropWhile Char.isDigit)
  | _ => some ("", l)

/-- The exponent part of a JSON number, if one starts here. -/
def parseExp (l : List Char) : Option (String × List Char) :=
  match l with
  | c :: rest =>
    if c = 'e' || c = 'E' then
      let (sign, rest2) :=
        match rest with
        | s :: t => if s = '+' || s = '-' then (String.singleton s, t) else ("", rest)
        | [] => ("", rest)
      let digits := rest2.takeWhile Char.isDigit
      if digits.isEmpty then none
      else some (String.singleton c ++ sign ++ String.mk digits,
                 rest2.dropWhile Char.isDigit)
    else some ("", l)
  | [] => some ("", l)

/-- A JSON number literal: `-?(0|[1-9][0-9]*)(.[0-9]+)?([eE][+-]?[0-9]+)?`. -/
def parseNumber (l : List Char) : Option (String × List Char) :=
  let (neg, l1) :=
    match l with
    | '-' :: t => ("-", t)
    | _ => ("", l)
  match l1 with
  | [] => none
  | c :: t =>
    let intRes : Option (String × List Char) :=
      if c = '0' then some ("0", t)
      else if c.isDigit then
        some (String.singleton c ++ String.mk (t.takeWhile Char.isDigit),
              t.dropWhile Char.isDigit)
      else none
    match intRes with
    | none => none
    | some (ip, l2) =>
      match parseFrac l2 with
      | none => none
      | some (fp, l3) =>
        match parseExp l3 with
        | none => none
        | some (ep, l4) => some (neg ++ ip ++ fp ++ ep, l4)

/-- The `{` character (written by code point, as elsewhere in this file). -/
def lbrace : Char := Char.ofNat 123

/-- The `}` character. -/
def rbrace : Char := Char.ofNat 125

mutual

/-- A JSON value starting at the head of the input (leading whitespace
already skipped); returns the value and the unconsumed input. -/
def parseValue : Nat → List Char → Option (Json × List Char)
  | 0, _ => none
  | fuel + 1, l =>
    match l with
    | [] => none
    | c :: cs =>
      if c = lbrace then parseObjBody fuel (skipWs cs)
      else if c = '[' then parseArrBody fuel (skipWs cs)
      else if c = '"' then
        match parseStringBody (cs.length + 1) cs with
        | some (s, r) => some (.str s, r)
        | none => none
      else if c = 't' then
        match l with
        | 't' :: 'r' :: 'u' :: 'e' :: r => some (.bool true, r)
        | _ => none
      else if c = 'f' then
        match l with
        | 'f' :: 'a' :: 'l' :: 's' :: 'e' :: r => some (.bool false, r)
        | _ => none
      else if c = 'n' then
        match l with
        | 'n' :: 'u' :: 'l' :: 'l' :: r => some (.null, r)
        | _ => none
      else if c = '-' || c.isDigit then
        match parseNumber l with
        | some (raw, r) => some (.num raw, r)
        | none => none
      else none

/-- After `[` and whitespace: an empty array or an element list. -/
def parseArrBody : Nat → List Char → Option (Json × List Char)
  | 0, _ => none
  | fuel + 1, l =>
    match l with
    | ']' :: r => some (.arr [], r)
    | _ =>
      match parseElems fuel l with
      | some (es, r) => some (.arr es, r)
      | none => none

/-- One or more comma-separated array elements, ending at `]`. -/
def parseElems : Nat → List Char → Option (List Json × List Char)
  | 0, _ => none
  | fuel + 1, l =>
    match parseValue fuel l with
    | none => none
    | some (v, r) =>
      match skipWs r with
      | ',' :: r2 =>
        match parseElems fuel (skipWs r2) with
        | some (es, r3) => some (v :: es, r3)
        | none => none
      | ']' :: r2 => some ([v], r2)
      | _ => none

/-- After `{` and whitespace: an empty object or a member list. -/
def parseObjBody : Nat → List Char → Option (Json × List Char)
  | 0, _ => none
  | fuel + 1, l =>
    match l with
    | [] => none
    | c :: r =>
      if c = rbrace then some (.obj [], r)
      else
        match parseMembers fuel l with
        | some (fs, r2) => some (.obj fs, r2)
        | none => none

/-- One or more comma-separated `"key": value` members, ending at the
closing brace. -/
def parseMembers : Nat → List Char → Option (List (String × Json) × List Char)
  | 0, _ => none
  | fuel + 1, l =>
    match l with
    | '"' :: cs =>
      match parseStringBody (cs.length + 1) cs with
      | none => none
      | some (k, r) =>
        match skipWs r with
        | ':' :: r2 =>
          match parseValue fuel (skipWs r2) with
          | none => none
          | some (v, r3) =>
            match skipWs r3 with
            | ',' :: r4 =>
              match parseMembers fuel (skipWs r4) with
              | some (fs, r5) => some ((k, v) :: fs, r5)
              | none => none
            | c2 :: r4 =>
              if c2 = rbrace then some ([(k, v)], r4)
              else none
            | [] => none
        | _ => none
    | _ => none

end

/-- The model of `JSON.parse`: `some` the parsed value on valid JSON text,
`none` when `JSON.parse` would throw a `SyntaxError`.  The fuel bound of
`4 * length + 8` exceeds the recursion depth any input of that length can
produce (each three levels of descent consume at least one character). -/
def parseJson (s : String) : Option Json :=
  match parseValue (4 * s.length + 8) (skipWs s.toList) with
  | some (v, rest) => if (skipWs rest).isEmpty then some v else none
  | none => none

/-- Four-digit uppercase-free hex of a code point below 0x10000, for the
`\uXXXX` escapes `JSON.stringify` emits for control characters. -/
def hex4 (n : Nat) : String :=
  let d := fun (k : Nat) =>
    if k < 10 then String.singleton (Char.ofNat ('0'.toNat + k))
    else String.singleton (Char.ofNat ('a'.toNat + k - 10))
  d (n / 4096 % 16) ++ d (n / 256 % 16) ++ d (n / 16 % 16) ++ d (n % 16)

/-- One character of a JSON string literal as `JSON.stringify` emits it. -/
def escapeChar (c : Char) : String :=
  if c = '"' then "\\\""
  else if c = '\\' then "\\\\"
  else if c = '\n' then "\\n"
  else if c = '\r' then "\\r"
  else if c = '\t' then "\\t"
  else if c = Char.ofNat 8 then "\\b"
  else if c = Char.ofNat 12 then "\\f"
  else if c.toNat < 0x20 then "\\u" ++ hex4 c.toNat
  else c.toString

/-- A JSON string literal for `s`. -/
def quoteStr (s : String) : String :=
  "\"" ++ String.join (s.toList.map escapeChar) ++ "\""

mutual

/-- The model of `JSON.stringify` on a JSON-shaped value (numbers keep
their literal text, matching the `Json.num` representation). -/
def stringifyJson : Json → String
  | .null => "null"
  | .bool true => "true"
  | .bool false => "false"
  | .num raw => raw
  | .str s => quoteStr s
  | .arr es => "[" ++ String.intercalate "," (stringifyList es) ++ "]"
  | .obj fs =>
      String.singleton lbrace ++
        String.intercalate "," (stringifyFields fs) ++
        String.singleton rbrace

def stringifyList : List Json → List String
  | [] => []
  | x :: t => stringifyJson x :: stringifyList t

def stringifyFields : List (String × Json) → List String
  | [] => []
  | kv :: t => (quoteStr kv.1 ++ ":" ++ stringifyJson kv.2) :: stringifyFields t

end

/-- Models the free text of the platform `SyntaxError` that `JSON.parse`
raises; the code under verification only ever wraps this text after a fixed
prefix, and no claim inspects it, so a fixed placeholder stands in for the
engine-specific message. -/
def syntaxErrorMessage (_ : String) : String :=
  "Unexpected token in JSON"

/-! ## Data model: parameters, execution context, platform world -/

/-- The error object the runner places on `params` before calling the
`error` handler. -/
structure ErrorInfo where
  message : String
deriving DecidableEq

/-- Job input parameters (`dist/index.js` destructures exactly these; a
`none` field is an absent / `undefined` property; `acceptedStatusCodes`
defaults to `[]` as in the destructuring default). -/
structure InvokeParams where
  method : Option String := none
  requestBody : Option String := none
  requestHeaders : Option String := none
  addressSuffix : Option String := none
  address : Option String := none
  acceptedStatusCodes : List Nat := []
  error : Option ErrorInfo := none
  reason : Option String := none
deriving DecidableEq

/-- The environment mapping; the code reads only `WEBHOOK_BASE_URL`. -/
structure EnvVars where
  WEBHOOK_BASE_URL : Option String := none
deriving DecidableEq

/-- The recognized secrets. -/
structure Secrets where
  AUTHORIZATION_HEADER : Option String := none
  API_KEY : Option String := none
  BEARER_TOKEN : Option String := none
deriving DecidableEq

/-- The execution context the runner supplies.  `partial_results` is an
opaque mapping; `none` models an absent property, `some m` a present object
(`m` possibly empty — an empty object is still truthy in JS). -/
structure Context where
  env : EnvVars := {}
  secrets : Secrets := {}
  partial_results : Option (List (String × String)) := none
deriving DecidableEq

/-- The request handed to the HTTP transport. -/
structure RequestOptions where
  method : String
  headers : List (String × String)
  body : Option String := none
deriving DecidableEq

/-- What the platform transport does with one request: completes with a
status / headers / body, or fails at transport level with a message. -/
inductive TransportResult where
  | ok (statusCode : Nat) (respHeaders : List (String × String)) (respBody : String)
  | err (msg : String)

/-- The platform collaborators `invoke` uses: the HTTP transport (a function
of the resolved URL and request options) and the clock (the
`new Date().toISOString()` string). -/
structure World where
  http : String → RequestOptions → TransportResult
  now : String

/-- The result object `dist/index.js`'s `invoke` returns; `error` is the
extra field present only on the `http_error` shape. -/
structure JobResult where
  status : String
  error : Option String := none
  status_code : Nat
  body : String
  headers : List (String × String)
  url : String
  method : String
  processed_at : String
deriving DecidableEq

/-! ## `dist/index.js`: request construction (`invoke`, before the I/O) -/

/-- The fixed default header set. -/
def defaultHeaders : List (String × String) :=
  [("User-Agent", "sgnl-generic-webhook/1.0.0")]

/-- `method.toUpperCase()` (ASCII, which covers HTTP verbs). -/
def jsToUpperCase (s : String) : String :=
  String.mk (s.toList.map Char.toUpper)

/-- Remove one trailing slash if the string ends in one, as
`targetUrl.replace(/\/$/, '')` does. -/
def stripTrailingSlash (s : String) : String :=
  match s.toList.getLast? with
  | some c => if c = '/' then String.mk s.toList.dropLast else s
  | none => s

/-- Remove one leading slash if the string starts with one, as
`addressSuffix.replace(/^\//, '')` does. -/
def stripLeadingSlash (s : String) : String :=
  match s.toList with
  | '/' :: t => String.mk t
  | _ => s

/-- The authentication block: sequential `if`/`else if` over the secrets,
first truthy secret wins, applied to the header object built so far. -/
def applyAuth (secrets : Secrets) (h : List (String × String)) :
    List (String × String) :=
  if truthyStr secrets.AUTHORIZATION_HEADER then
    setHeader h "Authorization" (secrets.AUTHORIZATION_HEADER.getD "")
  else if truthyStr secrets.API_KEY then
    setHeader h "X-API-Key" (secrets.API_KEY.getD "")
  else if truthyStr secrets.BEARER_TOKEN then
    setHeader h "Authorization" ("Bearer " ++ secrets.BEARER_TOKEN.getD "")
  else h

/-- Everything `dist/index.js`'s `invoke` does before the HTTP call, in
source order: method / address validation, suffix joining, default headers,
body validation (`Content-Type` set as soon as the body is accepted),
custom-header merge, authentication.  An `.error` is a thrown `Error`'s
message. -/
def buildRequest (params : InvokeParams) (ctx : Context) :
    Except String (String × RequestOptions) :=
  if !truthyStr params.method then
    .error "HTTP method is required"
  else if !truthyStr params.address then
    .error "address parameter is required"
  else
    let targetUrl0 := params.address.getD ""
    let targetUrl :=
      if truthyStr params.addressSuffix then
        stripTrailingSlash targetUrl0 ++ "/" ++
          stripLeadingSlash (params.addressSuffix.getD "")
      else targetUrl0
    let bodyStep : Except String (List (String × String) × Option String) :=
      if truthyStr params.requestBody then
        let b := params.requestBody.getD ""
        match parseJson b with
        | none => .error ("Invalid JSON in requestBody: " ++ syntaxErrorMessage b)
        | some _ =>
          .ok (setHeader defaultHeaders "Content-Type" "application/json", some b)
      else .ok (defaultHeaders, none)
    match bodyStep with
    | .error e => .error e
    | .ok (h1, body) =>
      let headerStep : Except String (List (String × String)) :=
        if truthyStr params.requestHeaders then
          let hs := params.requestHeaders.getD ""
          match parseJson hs with
          | none => .error ("Invalid JSON in requestHeaders: " ++ syntaxErrorMessage hs)
          | some v => .ok (assignJson h1 v)
        else .ok h1
      match headerStep with
      | .error e => .error e
      | .ok h2 =>
        .ok (targetUrl,
          { method := jsToUpperCase (params.method.getD ""),
            headers := applyAuth ctx.secrets h2,
            body := body })

/-! ## `dist/index.js`: `invoke` (request execution and classification) -/

/-- The `invoke` handler of `dist/index.js`.  A transport failure is wrapped
as `HTTP request failed: <message>` and thrown; a completed response is
classified: success iff the status code is in `acceptedStatusCodes` or in
the 200..299 range, anything else is a returned `http_error` result. -/
def invoke (w : World) (params : InvokeParams) (ctx : Context) :
    Except String JobResult :=
  match buildRequest params ctx with
  | .error e => .error e
  | .ok (targetUrl, opts) =>
    match w.http targetUrl opts with
    | .err msg => .error ("HTTP request failed: " ++ msg)
    | .ok statusCode respHeaders respBody =>
      let jobResult : JobResult :=
        { status := "",
          status_code := statusCode,
          body := respBody,
          headers := respHeaders,
          url := targetUrl,
          method := opts.method,
          processed_at := w.now }
      if statusCode ∈ params.acceptedStatusCodes ∨
          (200 ≤ statusCode ∧ statusCode < 300) then
        .ok { jobResult with status := "success" }
      else
        .ok { jobResult with
              status := "http_error",
              error := some ("HTTP request failed with status " ++ toString statusCode) }

/-! ## `dist/index.js`: `error` handler -/

/-- The `error` handler's observable effects besides its return value: the
fixed backoff delay and each call it makes back into `invoke`. -/
inductive Action where
  | sleep (ms : Nat)
  | invokeCall (params : InvokeParams)
deriving DecidableEq

/-- The recovery record returned for a timeout or DNS classification. -/
structure RecoveryResult where
  status : String
  method : Option String
  url : Option String
  recovery_method : String
  original_error : String
  recovered_at : String
  recommendation : String
deriving DecidableEq

/-- What `error` produces when it does not throw: the result of the single
retry (a `JobResult` from `invoke`), or a recovery record. -/
inductive ErrorOutcome where
  | job (r : JobResult)
  | recovery (r : RecoveryResult)
deriving DecidableEq

/-- The `error` handler of `dist/index.js`: string-pattern dispatch over
`error.message` (rate limit first, then timeout, then DNS, else an
unrecoverable throw), paired with the list of effects it performed.  If
`params.error` is absent the property read `error.message` itself throws;
that platform `TypeError` is modelled by a fixed message. -/
def errorHandler (w : World) (params : InvokeParams) (ctx : Context) :
    Except String ErrorOutcome × List Action :=
  match params.error with
  | none => (.error "TypeError: cannot read message of undefined", [])
  | some e =>
    let msg := e.message
    let targetUrl := jsOr params.address ctx.env.WEBHOOK_BASE_URL
    if containsSubstr msg "rate limit" || containsSubstr msg "429" then
      let originalParams := { params with error := none }
      match invoke w originalParams ctx with
      | .ok r =>
        (.ok (.job r), [.sleep 5000, .invokeCall originalParams])
      | .error m =>
        (.error ("Retry failed after rate limit backoff: " ++ m),
         [.sleep 5000, .invokeCall originalParams])
    else if containsSubstr msg "timeout" || containsSubstr msg "ETIMEDOUT" then
      (.ok (.recovery
        { status := "timeout_error",
          method := params.method,
          url := targetUrl,
          recovery_method := "timeout_handling",
          original_error := msg,
          recovered_at := w.now,
          recommendation := "Consider increasing timeout or checking network connectivity" }),
       [])
    else if containsSubstr msg "ENOTFOUND" || containsSubstr msg "DNS" then
      (.ok (.recovery
        { status := "dns_error",
          method := params.method,
          url := targetUrl,
          recovery_method := "dns_failure_handling",
          original_error := msg,
          recovered_at := w.now,
          recommendation := "Verify the target URL is correct and accessible" }),
       [])
    else
      (.error ("Unrecoverable webhook error: " ++ msg), [])

/-! ## `dist/index.js`: `halt` handler -/

/-- The record `halt` returns. -/
structure HaltResult where
  status : String
  method : String
  url : String
  reason : Option String
  halted_at : String
  cleanup_completed : Bool
  partial_results_logged : Bool
deriving DecidableEq

/-- The `halt` handler of `dist/index.js`: pure record construction, never
throws.  `partial_results_logged` is the JS double negation
`!!context.partial_results`: any present object — empty included — is
truthy. -/
def halt (w : World) (params : InvokeParams) (ctx : Context) : HaltResult :=
  let targetUrl := jsOr params.address ctx.env.WEBHOOK_BASE_URL
  { status := "halted",
    method := if truthyStr params.method then params.method.getD "" else "unknown",
    url := if truthyStr targetUrl then targetUrl.getD "" else "unknown",
    reason := params.reason,
    halted_at := w.now,
    cleanup_completed := true,
    partial_results_logged := ctx.partial_results.isSome }

/-! ## `src/script.mjs`: the fetch-based variant -/

namespace Mjs

/-- Parameters of the `script.mjs` variant: `requestBody` and
`requestHeaders` may be arbitrary JS values (modelled as JSON-shaped
values), not only strings. -/
structure Params where
  method : Option String := none
  address : Option String := none
  requestBody : Option Webhook.Json := none
  requestHeaders : Option Webhook.Json := none
  acceptedStatusCodes : List Nat := []

/-- What `script.mjs`'s `invoke` computes before calling
`makeWebhookRequest`. -/
structure Prepared where
  method : String
  address : String
  headers : List (String × String)
  body : Option String

/-- The pre-request part of `script.mjs`'s `invoke`, in source order:
validation, default headers, custom-header handling (a string is
`JSON.parse`d, any other value is used as-is), authentication, and body
preparation (a string verbatim, anything else `JSON.stringify`ed). -/
def prepare (params : Params) (ctx : Context) : Except String Prepared :=
  if !truthyStr params.method then
    .error "HTTP method is required"
  else if !truthyStr params.address then
    .error "address parameter is required"
  else
    let headerStep : Except String (List (String × String)) :=
      if truthyJson params.requestHeaders then
        match params.requestHeaders.getD .null with
        | .str s =>
          match parseJson s with
          | none => .error ("Invalid JSON in requestHeaders: " ++ syntaxErrorMessage s)
          | some v => .ok (assignJson defaultHeaders v)
        | v => .ok (assignJson defaultHeaders v)
      else .ok defaultHeaders
    match headerStep with
    | .error e => .error e
    | .ok h1 =>
      let h2 := applyAuth ctx.secrets h1
      let body : Option String :=
        if truthyJson params.requestBody then
          match params.requestBody.getD .null with
          | .str s => some s
          | v => some (stringifyJson v)
        else none
      .ok { method := params.method.getD "",
            address := params.address.getD "",
            headers := h2,
            body := body }

/-- The methods `makeWebhookRequest` attaches a body for. -/
def bodyMethods : List String := ["POST", "PUT", "PATCH", "DELETE"]

/-- The result shape `makeWebhookRequest` resolves with. -/
structure MjsResult where
  statusCode : Nat
  body : String
  success : Bool
  executedAt : String
deriving DecidableEq

/-- `makeWebhookRequest` of `script.mjs`: attaches the body only for
POST / PUT / PATCH / DELETE (after uppercasing), defaults `Content-Type`
only when neither the `Content-Type` nor the `content-type` spelling holds a
truthy value, performs the fetch, and classifies with
`response.ok || acceptedStatusCodes.includes(status)`.  A transport failure
is rethrown unchanged. -/
def makeWebhookRequest (w : World) (method url : String)
    (headers : List (String × String)) (body : Option String)
    (acceptedStatusCodes : List Nat) : Except String MjsResult :=
  let attach := truthyStr body && bodyMethods.contains (jsToUpperCase method)
  let headers2 :=
    if attach && !truthyStr (lookupHeader headers "Content-Type") &&
        !truthyStr (lookupHeader headers "content-type") then
      setHeader headers "Content-Type" "application/json"
    else headers
  let opts : RequestOptions :=
    { method := method,
      headers := headers2,
      body := if attach then body else none }
  match w.http url opts with
  | .err msg => .error msg
  | .ok status _ respBody =>
    .ok { statusCode := status,
          body := respBody,
          success := (200 ≤ status && status < 300) ||
            acceptedStatusCodes.contains status,
          executedAt := w.now }

/-- The `invoke` handler of `script.mjs`. -/
def invoke (w : World) (params : Params) (ctx : Context) :
    Except String MjsResult :=
  match prepare params ctx with
  | .error e => .error e
  | .ok p =>
    makeWebhookRequest w p.method p.address p.headers p.body
      params.acceptedStatusCodes

end Mjs

/-! ## Header-map lemmas -/

/-- The value the last pair with key `k` carries, if any: what a
left-to-right `Object.assign` of these pairs leaves at `k`. -/
def assocLast (l : List (String × String)) (k : String) : Option String :=
  match l with
  | [] => none
  | p :: t =>
    match assocLast t k with
    | some v => some v
    | none => if p.1 = k then some p.2 else none

theorem lookupHeader_map_ne (h : List (String × String)) (k v k' : String)
    (hne : k' ≠ k) :
    lookupHeader (h.map (fun p => if p.1 = k then (p.1, v) else p)) k' =
      lookupHeader h k' := by
  induction h with
  | nil => rfl
  | cons p t ih =>
    by_cases hk : p.1 = k
    · simp only [List.map, lookupHeader, if_pos hk]
      rw [if_neg (hk ▸ fun hx => hne hx.symm), if_neg (hk ▸ fun hx => hne hx.symm), ih]
    · simp only [List.map, lookupHeader, if_neg hk]
      by_cases hk' : p.1 = k'
      · simp [hk']
      · simp [hk', ih]

theorem lookupHeader_map_update_eq (t : List (String × String)) (k v : String) :
    t.any (fun p => p.1 = k) = true →
    lookupHeader (t.map (fun p => if p.1 = k then (p.1, v) else p)) k = some v := by
  induction t with
  | nil => intro hx; simp at hx
  | cons p t ih =>
    intro hany
    by_cases hp : p.1 = k
    · simp [lookupHeader, if_pos hp, hp]
    · simp only [List.any_cons, decide_eq_true_eq, Bool.or_eq_true] at hany
      rcases hany with hc | ht
      · exact absurd hc hp
      · simp only [List.map, lookupHeader, if_neg hp]
        exact ih ht

theorem lookupHeader_append_single_eq (t : List (String × String)) (k v : String) :
    t.any (fun p => p.1 = k) = false →
    lookupHeader (t ++ [(k, v)]) k = some v := by
  induction t with
  | nil => intro _; simp [lookupHeader]
  | cons p t ih =>
    intro hnone
    simp only [List.any_cons, Bool.or_eq_false_iff, decide_eq_false_iff_not] at hnone
    simp only [List.cons_append, lookupHeader, if_neg hnone.1]
    exact ih (by simpa using hnone.2)

theorem lookupHeader_append_single_ne (t : List (String × String)) (k v k' : String)
    (hne : k' ≠ k) :
    lookupHeader (t ++ [(k, v)]) k' = lookupHeader t k' := by
  induction t with
  | nil =>
    simp only [List.nil_append, lookupHeader]
    rw [if_neg (fun hx => hne hx.symm)]
  | cons p t ih =>
    simp only [List.cons_append, lookupHeader, List.append_eq]
    rw [ih]

theorem lookupHeader_setHeader_eq (h : List (String × String)) (k v : String) :
    lookupHeader (setHeader h k v) k = some v := by
  unfold setHeader
  split
  · next hany => exact lookupHeader_map_update_eq h k v (by simpa using hany)
  · next hany => exact lookupHeader_append_single_eq h k v (Bool.eq_false_iff.mpr hany)

theorem lookupHeader_setHeader_ne (h : List (String × String)) (k v k' : String)
    (hne : k' ≠ k) :
    lookupHeader (setHeader h k v) k' = lookupHeader h k' := by
  unfold setHeader
  split
  · exact lookupHeader_map_ne h k v k' hne
  · exact lookupHeader_append_single_ne h k v k' hne

theorem lookupHeader_assignFields (l : List (String × String))
    (h : List (String × String)) (k : String) :
    lookupHeader (assignFields h l) k =
      match assocLast l k with
      | some v => some v
      | none => lookupHeader h k := by
  induction l generalizing h with
  | nil => rfl
  | cons p t ih =>
    show lookupHeader (assignFields (setHeader h p.1 p.2) t) k = _
    rw [ih]
    by_cases hl : (assocLast t k).isSome
    · obtain ⟨v, hv⟩ := Option.isSome_iff_exists.mp hl
      simp [assocLast, hv]
    · have hn : assocLast t k = none := Option.not_isSome_iff_eq_none.mp hl
      by_cases hp : p.1 = k
      · simp [assocLast, hn, hp, hp ▸ lookupHeader_setHeader_eq h p.1 p.2]
      · simp [assocLast, hn, hp,
          lookupHeader_setHeader_ne h p.1 p.2 k (fun hk => hp hk.symm)]

theorem lookupHeader_applyAuth_ne (s : Secrets) (h : List (String × String))
    (k : String) (h1 : k ≠ "Authorization") (h2 : k ≠ "X-API-Key") :
    lookupHeader (applyAuth s h) k = lookupHeader h k := by
  unfold applyAuth
  split
  · exact lookupHeader_setHeader_ne _ _ _ _ h1
  · split
    · exact lookupHeader_setHeader_ne _ _ _ _ h2
    · split
      · exact lookupHeader_setHeader_ne _ _ _ _ h1
      · rfl

/-! ## Claims -/

/-- C1: whenever `invoke` returns a result (the HTTP request completed with
the status code recorded in `status_code`), the result's status is
`"success"` iff the code is in the 200..299 range or in
`acceptedStatusCodes` (default empty); otherwise `invoke` returns — does not
throw — a result with status `"http_error"` whose `error` field is exactly
`"HTTP request failed with status <code>"`. -/
theorem C1_status_classification (w : World) (params : InvokeParams)
    (ctx : Context) (r : JobResult) (h : invoke w params ctx = .ok r) :
    (r.status = "success" ↔
      (200 ≤ r.status_code ∧ r.status_code < 300) ∨
        r.status_code ∈ params.acceptedStatusCodes) ∧
    (r.status = "success" ∨
      (r.status = "http_error" ∧
        r.error = some ("HTTP request failed with status " ++ toString r.status_code))) := by
  unfold invoke at h
  split at h
  · exact absurd h (by simp)
  · split at h
    · exact absurd h (by simp)
    · split at h
      · next hc =>
        injection h with h
        subst h
        constructor
        · simpa using Or.symm hc
        · exact Or.inl rfl
      · next hc =>
        injection h with h
        subst h
        constructor
        · simpa using fun hx => hc (Or.symm hx)
        · exact Or.inr ⟨rfl, rfl⟩

def exW1 : World :=
  { http := fun _ _ => .ok 404 [] "Not Found",
    now := "2026-01-01T00:00:00.000Z" }

def exP1 : InvokeParams :=
  { method := some "DELETE",
    address := some "https://api.example.com/users/123",
    acceptedStatusCodes := [404] }

def exR1 : JobResult :=
  { status := "success",
    status_code := 404,
    body := "Not Found",
    headers := [],
    url := "https://api.example.com/users/123",
    method := "DELETE",
    processed_at := "2026-01-01T00:00:00.000Z" }

/-- C1 witness: a concrete 404 response accepted through
`acceptedStatusCodes = [404]`. -/
theorem C1_status_classification_witness :
    (exR1.status = "success" ↔
      (200 ≤ exR1.status_code ∧ exR1.status_code < 300) ∨
        exR1.status_code ∈ exP1.acceptedStatusCodes) ∧
    (exR1.status = "success" ∨
      (exR1.status = "http_error" ∧
        exR1.error = some ("HTTP request failed with status " ++ toString exR1.status_code))) :=
  C1_status_classification exW1 exP1 {} exR1 (by rfl)

/-- C2: for an `error` call whose message contains neither "rate limit" nor
"429": a message containing "timeout" or "ETIMEDOUT" yields a returned
result with status `"timeout_error"` and recovery_method
`"timeout_handling"`; otherwise one containing "ENOTFOUND" or "DNS" yields
status `"dns_error"` with recovery_method `"dns_failure_handling"`; any
other message makes the handler throw
`"Unrecoverable webhook error: <message>"`.  The checks are case-sensitive
substring tests and the first matching rule wins. -/
theorem C2_error_dispatch (w : World) (params : InvokeParams) (ctx : Context)
    (e : ErrorInfo) (he : params.error = some e)
    (h1 : containsSubstr e.message "rate limit" = false)
    (h2 : containsSubstr e.message "429" = false) :
    ((containsSubstr e.message "timeout" = true ∨
        containsSubstr e.message "ETIMEDOUT" = true) →
      errorHandler w params ctx =
        (.ok (.recovery
          { status := "timeout_error",
            method := params.method,
            url := jsOr params.address ctx.env.WEBHOOK_BASE_URL,
            recovery_method := "timeout_handling",
            original_error := e.message,
            recovered_at := w.now,
            recommendation := "Consider increasing timeout or checking network connectivity" }),
         [])) ∧
    (containsSubstr e.message "timeout" = false →
      containsSubstr e.message "ETIMEDOUT" = false →
      (containsSubstr e.message "ENOTFOUND" = true ∨
        containsSubstr e.message "DNS" = true) →
      errorHandler w params ctx =
        (.ok (.recovery
          { status := "dns_error",
            method := params.method,
            url := jsOr params.address ctx.env.WEBHOOK_BASE_URL,
            recovery_method := "dns_failure_handling",
            original_error := e.message,
            recovered_at := w.now,
            recommendation := "Verify the target URL is correct and accessible" }),
         [])) ∧
    (containsSubstr e.message "timeout" = false →
      containsSubstr e.message "ETIMEDOUT" = false →
      containsSubstr e.message "ENOTFOUND" = false →
      containsSubstr e.message "DNS" = false →
      errorHandler w params ctx =
        (.error ("Unrecoverable webhook error: " ++ e.message), [])) := by
  refine ⟨?_, ?_, ?_⟩
  · intro ht
    simp only [errorHandler, he, h1, h2, Bool.or_self, Bool.false_eq_true, if_false]
    rcases ht with ht | ht <;> simp [ht]
  · intro ht1 ht2 hd
    simp only [errorHandler, he, h1, h2, ht1, ht2, Bool.or_self, Bool.false_eq_true,
      if_false]
    rcases hd with hd | hd <;> simp [hd]
  · intro ht1 ht2 hd1 hd2
    simp only [errorHandler, he, h1, h2, ht1, ht2, hd1, hd2, Bool.or_self,
      Bool.false_eq_true, if_false]

def exE2 : ErrorInfo := { message := "Request timeout - ETIMEDOUT" }

def exP2 : InvokeParams :=
  { method := some "GET",
    address := some "https://api.example.com",
    error := some exE2 }

def exW2 : World := { http := fun _ _ => .ok 200 [] "", now := "2026-01-01T00:00:00.000Z" }

/-- C2 witness: the repo test's timeout message, dispatched to the
timeout recovery record. -/
theorem C2_error_dispatch_witness :
    ((containsSubstr exE2.message "timeout" = true ∨
        containsSubstr exE2.message "ETIMEDOUT" = true) →
      errorHandler exW2 exP2 {} =
        (.ok (.recovery
          { status := "timeout_error",
            method := exP2.method,
            url := jsOr exP2.address ({} : Context).env.WEBHOOK_BASE_URL,
            recovery_method := "timeout_handling",
            original_error := exE2.message,
            recovered_at := exW2.now,
            recommendation := "Consider increasing timeout or checking network connectivity" }),
         [])) ∧
    (containsSubstr exE2.message "timeout" = false →
      containsSubstr exE2.message "ETIMEDOUT" = false →
      (containsSubstr exE2.message "ENOTFOUND" = true ∨
        containsSubstr exE2.message "DNS" = true) →
      errorHandler exW2 exP2 {} =
        (.ok (.recovery
          { status := "dns_error",
            method := exP2.method,
            url := jsOr exP2.address ({} : Context).env.WEBHOOK_BASE_URL,
            recovery_method := "dns_failure_handling",
            original_error := exE2.message,
            recovered_at := exW2.now,
            recommendation := "Verify the target URL is correct and accessible" }),
         [])) ∧
    (containsSubstr exE2.message "timeout" = false →
      containsSubstr exE2.message "ETIMEDOUT" = false →
      containsSubstr exE2.message "ENOTFOUND" = false →
      containsSubstr exE2.message "DNS" = false →
      errorHandler exW2 exP2 {} =
        (.error ("Unrecoverable webhook error: " ++ exE2.message), [])) :=
  C2_error_dispatch exW2 exP2 {} exE2 (by rfl) (by decide) (by decide)

/-- C3: for an `error` call whose message contains "rate limit" or "429",
the handler sleeps the fixed 5000 ms delay, removes exactly the `error`
field from the params, calls `invoke` exactly once with the remaining
params and the same context (the effect trace holds exactly one
`invokeCall`), and returns its result; if that single retry throws, the
handler throws `"Retry failed after rate limit backoff: <inner message>"`. -/
theorem C3_rate_limit_single_retry (w : World) (params : InvokeParams)
    (ctx : Context) (e : ErrorInfo) (he : params.error = some e)
    (hm : containsSubstr e.message "rate limit" = true ∨
      containsSubstr e.message "429" = true) :
    errorHandler w params ctx =
      (match invoke w { params with error := none } ctx with
       | .ok r => .ok (.job r)
       | .error m => .error ("Retry failed after rate limit backoff: " ++ m),
       [.sleep 5000, .invokeCall { params with error := none }]) := by
  have hcond : (containsSubstr e.message "rate limit" ||
      containsSubstr e.message "429") = true := by
    rcases hm with hm | hm <;> simp [hm]
  simp only [errorHandler, he, hcond, if_true]
  cases hInv : invoke w { params with error := none } ctx <;> simp [hInv]

def exE3 : ErrorInfo := { message := "429 Too Many Requests" }

def exP3 : InvokeParams :=
  { method := some "GET",
    address := some "https://api.example.com",
    error := some exE3 }

/-- C3 witness: a concrete 429 message; the single retry reuses the params
without the `error` field and its success is returned. -/
theorem C3_rate_limit_single_retry_witness :
    errorHandler exW2 exP3 {} =
      (match invoke exW2 { exP3 with error := none } {} with
       | .ok r => .ok (.job r)
       | .error m => .error ("Retry failed after rate limit backoff: " ++ m),
       [.sleep 5000, .invokeCall { exP3 with error := none }]) :=
  C3_rate_limit_single_retry exW2 exP3 {} exE3 (by rfl) (Or.inr (by decide))

def exCtx4 : Context :=
  { env := { WEBHOOK_BASE_URL := some "https://api.example.com" } }

/-- C4: the code at the claim's failing input.  With `address` absent and a
base URL available in `context.env.WEBHOOK_BASE_URL`, `invoke` still throws
`"address parameter is required"`: it neither falls back to the environment
base URL nor mentions the environment variable in the message, although the
repository's own test expects
`"Either address parameter or WEBHOOK_BASE_URL environment variable must be
provided"` and the base-URL fallback. -/
theorem C4_address_required_despite_base_url :
    invoke exW2 { method := some "GET" } exCtx4 =
      .error "address parameter is required" := by rfl

def exP5 : InvokeParams :=
  { method := some "POST",
    address := some "https://api.example.com",
    requestBody := some "" }

def exR5 : JobResult :=
  { status := "success",
    status_code := 200,
    body := "",
    headers := [],
    url := "https://api.example.com",
    method := "POST",
    processed_at := "2026-01-01T00:00:00.000Z" }

/-- C5 counterexample: the empty string is a string that is not valid JSON
text (`JSON.parse("")` throws), yet `invoke` with `requestBody = ""` does
not throw at all — the falsiness check `if (requestBody)` skips the
validation and the request proceeds to a success result. -/
theorem C5_counterexample_empty_body :
    parseJson "" = none ∧ invoke exW2 exP5 {} = .ok exR5 :=
  ⟨rfl, rfl⟩

/-- C5 amended: in a call that passes method and address validation, a
present non-empty `requestBody` string that is not valid JSON makes
`invoke` throw `"Invalid JSON in requestBody: ..."`, and — when the body
validation passed or the body was absent or empty — a present non-empty
`requestHeaders` string that is not valid JSON makes it throw
`"Invalid JSON in requestHeaders: ..."`; both failures are independent of
the transport, i.e. happen before any HTTP request. -/
theorem C5_invalid_json_rejected (w : World) (params : InvokeParams)
    (ctx : Context) (hm : truthyStr params.method = true)
    (ha : truthyStr params.address = true) :
    (∀ s, params.requestBody = some s → s ≠ "" → parseJson s = none →
      invoke w params ctx =
        .error ("Invalid JSON in requestBody: " ++ syntaxErrorMessage s)) ∧
    (∀ s, (params.requestBody = none ∨ params.requestBody = some "" ∨
        (∃ b v, params.requestBody = some b ∧ parseJson b = some v)) →
      params.requestHeaders = some s → s ≠ "" → parseJson s = none →
      invoke w params ctx =
        .error ("Invalid JSON in requestHeaders: " ++ syntaxErrorMessage s)) := by
  constructor
  · intro s hb hs hp
    have hts : truthyStr (some s) = true := by
      simp [truthyStr, hs]
    simp [invoke, buildRequest, hm, ha, hb, hts, hp]
  · intro s hbcase hh hs hp
    have hts : truthyStr (some s) = true := by
      simp [truthyStr, hs]
    have htn : truthyStr none = false := rfl
    have hte : truthyStr (some "") = false := by simp [truthyStr]
    rcases hbcase with hb | hb | ⟨b, v, hb, hv⟩
    · simp [invoke, buildRequest, hm, ha, hb, hh, hts, hp, htn]
    · simp [invoke, buildRequest, hm, ha, hb, hh, hts, hp, hte]
    · have htb : truthyStr params.requestBody = true ∨
          truthyStr params.requestBody = false := by
        cases truthyStr params.requestBody <;> simp
      rcases htb with htb | htb
      · rw [hb] at htb
        simp [invoke, buildRequest, hm, ha, hb, htb, hh, hts, hp, hv]
      · simp [invoke, buildRequest, hm, ha, htb, hh, hts, hp]

def exP5w : InvokeParams :=
  { method := some "POST",
    address := some "https://api.example.com",
    requestBody := some "\x7b\"invalid\": json\x7d" }

/-- C5 witness: the spec's malformed body example is rejected with the
`requestBody` message, for an arbitrary transport. -/
theorem C5_invalid_json_rejected_witness :
    invoke exW2 exP5w {} =
      .error ("Invalid JSON in requestBody: " ++
        syntaxErrorMessage "\x7b\"invalid\": json\x7d") :=
  (C5_invalid_json_rejected exW2 exP5w {} (by decide) (by decide)).1
    "\x7b\"invalid\": json\x7d" rfl (by decide) (by rfl)

/-- C6: in any `invoke` whose request construction succeeds (stated here
without custom `requestHeaders`, which could add arbitrary keys of their
own), at most one of the three authentication headers is applied, first
match winning in the order `AUTHORIZATION_HEADER` (sets `Authorization`
verbatim), `API_KEY` (sets `X-API-Key`), `BEARER_TOKEN` (sets
`Authorization: Bearer <token>`); in particular with `API_KEY` and
`BEARER_TOKEN` both present and no `AUTHORIZATION_HEADER`, only `X-API-Key`
is set and `Authorization` is absent. -/
theorem C6_auth_precedence (params : InvokeParams) (ctx : Context)
    (url : String) (opts : RequestOptions)
    (hrh : params.requestHeaders = none)
    (hok : buildRequest params ctx = .ok (url, opts)) :
    (∀ a, ctx.secrets.AUTHORIZATION_HEADER = some a → a ≠ "" →
      lookupHeader opts.headers "Authorization" = some a ∧
      lookupHeader opts.headers "X-API-Key" = none) ∧
    (truthyStr ctx.secrets.AUTHORIZATION_HEADER = false →
      ∀ k, ctx.secrets.API_KEY = some k → k ≠ "" →
      lookupHeader opts.headers "X-API-Key" = some k ∧
      lookupHeader opts.headers "Authorization" = none) ∧
    (truthyStr ctx.secrets.AUTHORIZATION_HEADER = false →
      truthyStr ctx.secrets.API_KEY = false →
      ∀ t, ctx.secrets.BEARER_TOKEN = some t → t ≠ "" →
      lookupHeader opts.headers "Authorization" = some ("Bearer " ++ t) ∧
      lookupHeader opts.headers "X-API-Key" = none) ∧
    (truthyStr ctx.secrets.AUTHORIZATION_HEADER = false →
      truthyStr ctx.secrets.API_KEY = false →
      truthyStr ctx.secrets.BEARER_TOKEN = false →
      lookupHeader opts.headers "Authorization" = none ∧
      lookupHeader opts.headers "X-API-Key" = none) := by
  have htn : truthyStr (none : Option String) = false := rfl
  have hbase : ∃ h1, opts.headers = applyAuth ctx.secrets h1 ∧
      lookupHeader h1 "Authorization" = none ∧
      lookupHeader h1 "X-API-Key" = none := by
    simp only [buildRequest, hrh, htn, Bool.false_eq_true, if_false,
      Bool.not_eq_true'] at hok
    split at hok
    · exact absurd hok (by simp)
    · split at hok
      · exact absurd hok (by simp)
      · split at hok
        · exact absurd hok (by simp)
        · rename_i bs h1' body' heq
          injection hok with hok
          have hopts : opts.headers = applyAuth ctx.secrets h1' := by
            have := congrArg Prod.snd hok
            simp at this
            rw [← this]
          split at heq
          · split at heq
            · exact absurd heq (by simp)
            · injection heq with heq
              have hh1 : h1' =
                  setHeader defaultHeaders "Content-Type" "application/json" := by
                have := congrArg Prod.fst heq
                simpa using this.symm
              exact ⟨h1', hopts, by rw [hh1]; decide, by rw [hh1]; decide⟩
          · injection heq with heq
            have hh1 : h1' = defaultHeaders := by
              have := congrArg Prod.fst heq
              simpa using this.symm
            exact ⟨h1', hopts, by rw [hh1]; decide, by rw [hh1]; decide⟩
  obtain ⟨h1, hoh, hA, hK⟩ := hbase
  have hAK : ("X-API-Key" : String) ≠ "Authorization" := by decide
  have hKA : ("Authorization" : String) ≠ "X-API-Key" := by decide
  refine ⟨?_, ?_, ?_, ?_⟩
  · intro a hs hane
    have hta : truthyStr ctx.secrets.AUTHORIZATION_HEADER = true := by
      simp [truthyStr, hs, hane]
    rw [hoh]
    unfold applyAuth
    rw [hta, if_pos rfl, hs]
    exact ⟨lookupHeader_setHeader_eq _ _ _,
      by rw [lookupHeader_setHeader_ne _ _ _ _ hAK]; exact hK⟩
  · intro hfa k hs hkne
    have htk : truthyStr ctx.secrets.API_KEY = true := by
      simp [truthyStr, hs, hkne]
    rw [hoh]
    unfold applyAuth
    rw [hfa, htk]
    simp only [Bool.false_eq_true, if_false, if_true, hs, Option.getD_some]
    exact ⟨lookupHeader_setHeader_eq _ _ _,
      by rw [lookupHeader_setHeader_ne _ _ _ _ hKA]; exact hA⟩
  · intro hfa hfk t hs htne
    have htt : truthyStr ctx.secrets.BEARER_TOKEN = true := by
      simp [truthyStr, hs, htne]
    rw [hoh]
    unfold applyAuth
    rw [hfa, hfk, htt]
    simp only [Bool.false_eq_true, if_false, if_true, hs, Option.getD_some]
    exact ⟨lookupHeader_setHeader_eq _ _ _,
      by rw [lookupHeader_setHeader_ne _ _ _ _ hAK]; exact hK⟩
  · intro hfa hfk hft
    rw [hoh]
    unfold applyAuth
    rw [hfa, hfk, hft]
    simp only [Bool.false_eq_true, if_false]
    exact ⟨hA, hK⟩

def exCtx6 : Context :=
  { secrets := { API_KEY := some "test-api-key-123456",
                 BEARER_TOKEN := some "bearer-token-789" } }

def exP6 : InvokeParams :=
  { method := some "GET", address := some "https://api.example.com" }

def exOpts6 : RequestOptions :=
  { method := "GET",
    headers := [("User-Agent", "sgnl-generic-webhook/1.0.0"),
                ("X-API-Key", "test-api-key-123456")],
    body := none }

/-- C6 witness: both `API_KEY` and `BEARER_TOKEN` present without
`AUTHORIZATION_HEADER`: only `X-API-Key` is applied. -/
theorem C6_auth_precedence_witness :
    lookupHeader exOpts6.headers "X-API-Key" = some "test-api-key-123456" ∧
    lookupHeader exOpts6.headers "Authorization" = none :=
  (C6_auth_precedence exP6 exCtx6 "https://api.example.com" exOpts6
      rfl (by rfl)).2.1 rfl "test-api-key-123456" rfl (by decide)

def exP7 : InvokeParams :=
  { method := some "POST",
    address := some "https://api.example.com",
    requestBody := some "\x7b\x7d",
    requestHeaders := some "\x7b\"content-type\":\"text/xml\"\x7d" }

/-- C7 counterexample: with a valid body and custom headers containing the
key `content-type` (lower case), the final header set holds **both**
`Content-Type: application/json` and `content-type: text/xml` — the default
was applied although a Content-Type key (compared case-insensitively) is
present after merging `requestHeaders`, contradicting the claimed
"only if". -/
theorem C7_counterexample_case_variant_header :
    (buildRequest exP7 {}).map
        (fun pr => (lookupHeader pr.2.headers "Content-Type",
                    lookupHeader pr.2.headers "content-type",
                    pr.2.body)) =
      .ok (some "application/json", some "text/xml", some "\x7b\x7d") := by rfl

/-- C7 amended: in the `dist` variant a present, valid, non-empty
`requestBody` string is attached verbatim as the outgoing body regardless
of HTTP method (GET included), and `Content-Type: application/json` is set
at that moment — **before** `requestHeaders` are merged.  Consequently the
final `Content-Type` value is `application/json` unless the custom headers
contain a key spelled exactly `Content-Type` (then the last such custom
value wins); differently-cased spellings such as `content-type` do not
suppress the default. -/
theorem C7_body_attach_and_content_type (params : InvokeParams)
    (ctx : Context) (url : String) (opts : RequestOptions) (s : String)
    (hb : params.requestBody = some s) (hs : s ≠ "")
    (hok : buildRequest params ctx = .ok (url, opts)) :
    opts.body = some s ∧
    (params.requestHeaders = none →
      lookupHeader opts.headers "Content-Type" = some "application/json") ∧
    (∀ hs' fields, params.requestHeaders = some hs' →
      parseJson hs' = some (.obj fields) →
      lookupHeader opts.headers "Content-Type" =
        some ((assocLast (fields.map (fun kv => (kv.1, jsonToStr kv.2)))
          "Content-Type").getD "application/json")) := by
  have hts : truthyStr (some s) = true := by simp [truthyStr, hs]
  have hCA : ("Content-Type" : String) ≠ "Authorization" := by decide
  have hCK : ("Content-Type" : String) ≠ "X-API-Key" := by decide
  rcases hparse : parseJson s with _ | v
  · simp only [buildRequest, hb, hts, hparse, Option.getD_some, if_true] at hok
    split at hok
    · exact absurd hok (by simp)
    · split at hok
      · exact absurd hok (by simp)
      · exact absurd hok (by simp)
  · simp only [buildRequest, hb, hts, hparse, Option.getD_some, if_true] at hok
    split at hok
    · exact absurd hok (by simp)
    · split at hok
      · exact absurd hok (by simp)
      · split at hok
        · exact absurd hok (by simp)
        · rename_i h2 heq
          injection hok with hok
          have hrec := congrArg Prod.snd hok
          simp only at hrec
          have hoptsh : opts.headers = applyAuth ctx.secrets h2 := by
            rw [← hrec]
          have hoptsb : opts.body = some s := by
            rw [← hrec]
          refine ⟨hoptsb, ?_, ?_⟩
          · intro hrhn
            have htn : truthyStr (none : Option String) = false := rfl
            rw [hrhn, htn] at heq
            simp only [Bool.false_eq_true, if_false] at heq
            injection heq with heq
            rw [hoptsh, lookupHeader_applyAuth_ne _ _ _ hCA hCK, ← heq]
            exact lookupHeader_setHeader_eq _ _ _
          · intro hs' fields hrh hpj
            have hse : hs' ≠ "" := by
              intro hx
              rw [hx] at hpj
              exact Option.noConfusion hpj
            have hth : truthyStr (some hs') = true := by simp [truthyStr, hse]
            rw [hrh, hth] at heq
            simp only [if_true, Option.getD_some, hpj] at heq
            injection heq with heq
            rw [hoptsh, lookupHeader_applyAuth_ne _ _ _ hCA hCK, ← heq]
            show lookupHeader (assignFields _ _) "Content-Type" = _
            rw [lookupHeader_assignFields]
            rcases hal : assocLast
                (fields.map (fun kv => (kv.1, jsonToStr kv.2))) "Content-Type" with _ | v2
            · rw [hal]
              exact lookupHeader_setHeader_eq _ _ _
            · rw [hal]
              rfl

def exP7w : InvokeParams :=
  { method := some "GET",
    address := some "https://a.example.com",
    requestBody := some "\x7b\x7d" }

def exOpts7w : RequestOptions :=
  { method := "GET",
    headers := [("User-Agent", "sgnl-generic-webhook/1.0.0"),
                ("Content-Type", "application/json")],
    body := some "\x7b\x7d" }

/-- C7 witness: a GET with a valid body: the body is attached anyway and
`Content-Type` defaults to `application/json` (no custom headers given). -/
theorem C7_body_attach_and_content_type_witness :
    exOpts7w.body = some "\x7b\x7d" ∧
    lookupHeader exOpts7w.headers "Content-Type" = some "application/json" :=
  ⟨(C7_body_attach_and_content_type exP7w {} "https://a.example.com" exOpts7w
      "\x7b\x7d" rfl (by decide) (by rfl)).1,
   (C7_body_attach_and_content_type exP7w {} "https://a.example.com" exOpts7w
      "\x7b\x7d" rfl (by decide) (by rfl)).2.1 rfl⟩

def exW8 : World := { http := fun _ _ => .ok 200 [] "", now := "2026-01-01T00:00:00.000Z" }

def exP8 : InvokeParams := { method := some "POST", reason := some "cancellation" }

def exCtx8 : Context := { partial_results := some [] }

/-- C8 counterexample: with `context.partial_results` present but **empty**,
`halt` still reports `partial_results_logged = true` (`!!{}` is true in JS),
so the flag is not "true iff partial_results is present and non-empty". -/
theorem C8_counterexample_empty_partial_results :
    ¬ ((halt exW8 exP8 exCtx8).partial_results_logged =
        (exCtx8.partial_results.isSome &&
          !(exCtx8.partial_results.getD []).isEmpty)) := by decide

/-- C8 amended: `halt` never throws (it is a total record construction) and
always returns status `"halted"`, `cleanup_completed = true`, the echoed
`reason`, a `halted_at` timestamp, `method` equal to `params.method` when
that is a non-empty string and `"unknown"` otherwise, `url` resolved as
`params.address`, else the context base URL, else `"unknown"`, and
`partial_results_logged` true iff `context.partial_results` is **present**
(truthy) — an empty mapping still counts. -/
theorem C8_halt_contract (w : World) (params : InvokeParams) (ctx : Context) :
    (halt w params ctx).status = "halted" ∧
    (halt w params ctx).cleanup_completed = true ∧
    (halt w params ctx).reason = params.reason ∧
    (halt w params ctx).halted_at = w.now ∧
    (truthyStr params.method = true →
      (halt w params ctx).method = params.method.getD "") ∧
    (truthyStr params.method = false →
      (halt w params ctx).method = "unknown") ∧
    (truthyStr params.address = true →
      (halt w params ctx).url = params.address.getD "") ∧
    (truthyStr params.address = false →
      truthyStr ctx.env.WEBHOOK_BASE_URL = true →
      (halt w params ctx).url = ctx.env.WEBHOOK_BASE_URL.getD "") ∧
    (truthyStr params.address = false →
      truthyStr ctx.env.WEBHOOK_BASE_URL = false →
      (halt w params ctx).url = "unknown") ∧
    (halt w params ctx).partial_results_logged = ctx.partial_results.isSome := by
  refine ⟨rfl, rfl, rfl, rfl, ?_, ?_, ?_, ?_, ?_, rfl⟩
  · intro h; simp [halt, h]
  · intro h; simp [halt, h]
  · intro h; simp [halt, jsOr, h]
  · intro h1 h2; simp [halt, jsOr, h1, h2]
  · intro h1 h2; simp [halt, jsOr, h1, h2]

def exP8w : InvokeParams := { method := some "GET", reason := some "shutdown" }

def exCtx8w : Context :=
  { env := { WEBHOOK_BASE_URL := some "https://api.example.com" },
    partial_results := some [("request_started", "true")] }

/-- C8 witness: the amended contract at a concrete halt call (no address, a
base URL in the environment, non-empty partial results). -/
theorem C8_halt_contract_witness :
    (halt exW8 exP8w exCtx8w).status = "halted" ∧
    (halt exW8 exP8w exCtx8w).cleanup_completed = true ∧
    (halt exW8 exP8w exCtx8w).reason = exP8w.reason ∧
    (halt exW8 exP8w exCtx8w).halted_at = exW8.now ∧
    (truthyStr exP8w.method = true →
      (halt exW8 exP8w exCtx8w).method = exP8w.method.getD "") ∧
    (truthyStr exP8w.method = false →
      (halt exW8 exP8w exCtx8w).method = "unknown") ∧
    (truthyStr exP8w.address = true →
      (halt exW8 exP8w exCtx8w).url = exP8w.address.getD "") ∧
    (truthyStr exP8w.address = false →
      truthyStr exCtx8w.env.WEBHOOK_BASE_URL = true →
      (halt exW8 exP8w exCtx8w).url = exCtx8w.env.WEBHOOK_BASE_URL.getD "") ∧
    (truthyStr exP8w.address = false →
      truthyStr exCtx8w.env.WEBHOOK_BASE_URL = false →
      (halt exW8 exP8w exCtx8w).url = "unknown") ∧
    (halt exW8 exP8w exCtx8w).partial_results_logged =
      exCtx8w.partial_results.isSome :=
  C8_halt_contract exW8 exP8w exCtx8w

/-- C9: with a non-empty `addressSuffix`, the URL of any returned result is
exactly the base address with one trailing slash removed (if present), a
single `"/"`, and the suffix with one leading slash removed (if present) —
no other normalization. -/
theorem C9_suffix_join (w : World) (params : InvokeParams) (ctx : Context)
    (r : JobResult) (sfx : String)
    (hsfx : params.addressSuffix = some sfx) (hne : sfx ≠ "")
    (hok : invoke w params ctx = .ok r) :
    r.url = stripTrailingSlash (params.address.getD "") ++ "/" ++
      stripLeadingSlash sfx := by
  have hts : truthyStr (some sfx) = true := by simp [truthyStr, hne]
  unfold invoke at hok
  split at hok
  · exact absurd hok (by simp)
  · rename_i targetUrl opts heq
    have hurl : r.url = targetUrl := by
      split at hok
      · exact absurd hok (by simp)
      · split at hok
        · injection hok with hok; rw [← hok]
        · injection hok with hok; rw [← hok]
    rw [hurl]
    simp only [buildRequest, hsfx, hts, if_true] at heq
    split at heq
    · exact absurd heq (by simp)
    · split at heq
      · exact absurd heq (by simp)
      · split at heq
        · exact absurd heq (by simp)
        · split at heq
          · exact absurd heq (by simp)
          · injection heq with heq
            have := congrArg Prod.fst heq
            simpa using this.symm

def exP9 : InvokeParams :=
  { method := some "GET",
    address := some "https://api.example.com/",
    addressSuffix := some "/users" }

def exR9 : JobResult :=
  { status := "success",
    status_code := 200,
    body := "",
    headers := [],
    url := "https://api.example.com/users",
    method := "GET",
    processed_at := "2026-01-01T00:00:00.000Z" }

/-- C9 witness: address `https://api.example.com/` with suffix `/users`
resolves to exactly `https://api.example.com/users` — no double slash. -/
theorem C9_suffix_join_witness :
    exR9.url = stripTrailingSlash "https://api.example.com/" ++ "/" ++
      stripLeadingSlash "/users" ∧
    stripTrailingSlash "https://api.example.com/" ++ "/" ++
      stripLeadingSlash "/users" = "https://api.example.com/users" :=
  ⟨C9_suffix_join exW8 exP9 {} exR9 "/users" rfl (by decide) (by rfl), by rfl⟩

theorem truthyJson_some (v : Json) : truthyJson (some v) = jsTruthy v := rfl

theorem truthyJson_none : truthyJson none = false := rfl

/-- `Object.assign` with a falsy primitive source contributes nothing. -/
theorem assignJson_primitive (h : List (String × String)) (v : Json)
    (hnstr : ∀ s, v ≠ Json.str s) (hf : jsTruthy v = false) :
    assignJson h v = h := by
  cases v with
  | null => rfl
  | bool b => rfl
  | num raw => rfl
  | str s => exact absurd rfl (hnstr s)
  | arr es => simp [jsTruthy] at hf
  | obj fs => simp [jsTruthy] at hf

def exW10 : World := { http := fun _ _ => .ok 200 [] "", now := "2026-01-01T00:00:00.000Z" }

def exP10 : Mjs.Params :=
  { method := some "GET",
    address := some "https://api.example.com",
    requestHeaders := some (.str "\x7b\"invalid\": json\x7d") }

/-- C10 counterexample: a **string** `requestHeaders` value that is not
valid JSON does cause a validation failure in the `script.mjs` variant
(`"Invalid JSON in requestHeaders: ..."`), so it is not true that no input
of either parameter causes a validation failure. -/
theorem C10_counterexample_string_headers :
    Mjs.invoke exW10 exP10 {} =
      .error ("Invalid JSON in requestHeaders: " ++
        syntaxErrorMessage "\x7b\"invalid\": json\x7d") := by rfl

/-- C10 amended: in the `script.mjs` variant, `invoke` never fails on any
`requestBody` and never fails on a `requestHeaders` that is absent,
non-string, a valid-JSON string, or the empty string; a truthy non-string
`requestHeaders` is merged into the header set as-is without parsing (a
falsy primitive merges nothing, which `Object.assign` also does); a
non-empty string `requestBody` is sent verbatim with no JSON validity
check; a truthy non-string `requestBody` is serialized with
`JSON.stringify`.  Only a non-empty string `requestHeaders` that fails
`JSON.parse` causes a validation failure (see the counterexample). -/
theorem C10_mjs_lenient_params (params : Mjs.Params)
    (ctx : Context) (hm : truthyStr params.method = true)
    (ha : truthyStr params.address = true) :
    ((params.requestHeaders = none ∨
        (∃ v, params.requestHeaders = some v ∧ ∀ s, v ≠ Json.str s) ∨
        (∃ s v, params.requestHeaders = some (Json.str s) ∧ parseJson s = some v) ∨
        params.requestHeaders = some (Json.str "")) →
      ∃ p, Mjs.prepare params ctx = .ok p) ∧
    (∀ p s, Mjs.prepare params ctx = .ok p →
      params.requestBody = some (Json.str s) → s ≠ "" → p.body = some s) ∧
    (∀ p v, Mjs.prepare params ctx = .ok p →
      params.requestBody = some v → (∀ s, v ≠ Json.str s) → jsTruthy v = true →
      p.body = some (stringifyJson v)) ∧
    (∀ p v, Mjs.prepare params ctx = .ok p →
      params.requestHeaders = some v → (∀ s, v ≠ Json.str s) →
      p.headers = applyAuth ctx.secrets (assignJson defaultHeaders v)) := by
  refine ⟨?_, ?_, ?_, ?_⟩
  · intro hrh
    rcases hres : Mjs.prepare params ctx with e | p
    · exfalso
      rcases hrh with hn | ⟨v0, hv0, hnstr0⟩ | ⟨s0, v0, hs0, hpj0⟩ | he
      · simp [Mjs.prepare, hm, ha, hn, truthyJson_none] at hres
      · rcases htv : jsTruthy v0 with _ | _
        · simp [Mjs.prepare, hm, ha, hv0, truthyJson_some, htv] at hres
        · have hmatch : (match v0 with
              | Json.str s =>
                match parseJson s with
                | none => Except.error ("Invalid JSON in requestHeaders: " ++
                    syntaxErrorMessage s)
                | some v => Except.ok (assignJson defaultHeaders v)
              | v => Except.ok (assignJson defaultHeaders v)) =
              Except.ok (assignJson defaultHeaders v0) := by
            cases v0 with
            | str s => exact absurd rfl (hnstr0 s)
            | null => rfl
            | bool b => rfl
            | num raw => rfl
            | arr es => rfl
            | obj fs => rfl
          simp [Mjs.prepare, hm, ha, hv0, truthyJson_some, htv, hmatch] at hres
      · have hs0ne : s0 ≠ "" := by
          intro hx
          rw [hx] at hpj0
          exact Option.noConfusion hpj0
        have htv : jsTruthy (Json.str s0) = true := by simp [jsTruthy, hs0ne]
        simp [Mjs.prepare, hm, ha, hs0, truthyJson_some, htv, hpj0] at hres
      · have htv : jsTruthy (Json.str "") = false := by simp [jsTruthy]
        simp [Mjs.prepare, hm, ha, he, truthyJson_some, htv] at hres
    · exact ⟨p, rfl⟩
  · intro p s hok hb hsne
    simp only [Mjs.prepare, hm, ha, Bool.not_true, Bool.false_eq_true, if_false] at hok
    split at hok
    · exact absurd hok (by simp)
    · injection hok with hok
      have := congrArg Mjs.Prepared.body hok
      simp only [hb, truthyJson_some] at this
      rw [← this]
      simp [jsTruthy, hsne]
  · intro p v hok hb hnstr htv
    simp only [Mjs.prepare, hm, ha, Bool.not_true, Bool.false_eq_true, if_false] at hok
    split at hok
    · exact absurd hok (by simp)
    · injection hok with hok
      have := congrArg Mjs.Prepared.body hok
      simp only [hb, truthyJson_some, htv, if_true] at this
      rw [← this]
      cases v with
      | str s => exact absurd rfl (hnstr s)
      | null => rfl
      | bool b => rfl
      | num raw => rfl
      | arr es => rfl
      | obj fs => rfl
  · intro p v hok hrh hnstr
    simp only [Mjs.prepare, hm, ha, Bool.not_true, Bool.false_eq_true, if_false] at hok
    split at hok
    · exact absurd hok (by simp)
    · rename_i h1 heq
      injection hok with hok
      have hph := congrArg Mjs.Prepared.headers hok
      simp only at hph
      rcases htv : jsTruthy v with _ | _
      · rw [hrh, truthyJson_some, htv] at heq
        simp only [Bool.false_eq_true, if_false] at heq
        injection heq with heq
        rw [← hph, ← heq, assignJson_primitive defaultHeaders v hnstr htv]
      · rw [hrh, truthyJson_some, htv] at heq
        simp only [if_true, Option.getD_some] at heq
        rcases hveq : v with _ | b | raw | s | es | fs <;> rw [hveq] at heq <;>
          first
          | exact absurd hveq (hnstr s)
          | (injection heq with heq; rw [← hph, ← heq])

def exP10w : Mjs.Params :=
  { method := some "POST",
    address := some "https://api.example.com",
    requestBody := some (.obj [("a", .num "1")]),
    requestHeaders := some (.obj [("X-Custom", .str "value")]) }

def exPrep10 : Mjs.Prepared :=
  { method := "POST",
    address := "https://api.example.com",
    headers := [("User-Agent", "sgnl-generic-webhook/1.0.0"),
                ("X-Custom", "value")],
    body := some "\x7b\"a\":1\x7d" }

/-- C10 witness: a non-string body is `JSON.stringify`ed and non-string
headers are merged as-is, with no validation failure. -/
theorem C10_mjs_lenient_params_witness :
    exPrep10.body = some (stringifyJson (Json.obj [("a", Json.num "1")])) ∧
    exPrep10.headers = applyAuth ({} : Context).secrets
      (assignJson defaultHeaders (Json.obj [("X-Custom", Json.str "value")])) :=
  ⟨(C10_mjs_lenient_params exP10w {} (by decide) (by decide)).2.2.1
      exPrep10 (Json.obj [("a", Json.num "1")]) (by rfl) rfl
      (fun s h => Json.noConfusion h) rfl,
   (C10_mjs_lenient_params exP10w {} (by decide) (by decide)).2.2.2
      exPrep10 (Json.obj [("X-Custom", Json.str "value")]) (by rfl) rfl
      (fun s h => Json.noConfusion h)⟩

end Webhook
